import Mathlib

set_option autoImplicit false

deriving instance DecidableEq for Except

/-!
Shallow embedding of the authentication core of go-discussion-app:
pkg/jwtutil/jwtutil.go (token codec), internal/auth/middleware.go
(authentication middleware and identity accessor), internal/auth
service and controller (registration and login), internal/auth/dto.go
(payload validation), and the user repository contract.

Conventions of the embedding:
- Strings read from the process environment follow os.Getenv semantics:
  an unset variable reads as the empty string.
- Timestamps and durations are integers in seconds (JWT numeric dates).
- A token on the wire is modelled symbolically: either some string that
  is not a syntactically valid three-part JWT, or a well-formed triple
  of a header algorithm name, a claims payload, and a signature value.
  HMAC signatures are an injective constructor applied to the method
  name, the key, and the signed payload; this is the usual symbolic
  idealization of a MAC (hash collisions are ignored).
- bcrypt hashing and comparison are abstract function parameters: the
  theorems about the credential service do not depend on their
  semantics beyond how the service branches on the comparison result.
-/

namespace App

/-- Process environment as consumed by the token codec. os.Getenv
returns the empty string for an unset variable, so unset is modelled
as the empty string. -/
structure Env where
  jwtSecret : String
  jwtExpiresIn : String
deriving Repr, DecidableEq

/-- JWTClaims from jwtutil.go: a custom UserID claim plus the
registered claims that the code sets or checks. ExpiresAt and
IssuedAt are numeric dates in seconds; a missing claim is none. -/
structure JWTClaims where
  user_id : Int
  exp : Option Int
  iat : Option Int
deriving Repr, DecidableEq

/-- A signature value attached to a well-formed token. An HMAC
signature is determined by the method name, the key and the signed
content (header algorithm is part of the signed header, and the
payload is the signed claims); any other byte string is modelled by
the second constructor. Constructor injectivity is the symbolic
idealization of HMAC-SHA256. -/
inductive Sig where
  | hmacSig (alg : String) (key : String) (payload : JWTClaims)
  | otherSig (tag : String)
deriving Repr, DecidableEq

/-- A token string on the wire: either not a syntactically valid
three-part signed structure at all, or a well-formed triple of header
algorithm, claims payload and signature. -/
inductive TokenWire where
  | malformed (raw : String)
  | wellFormed (alg : String) (payload : JWTClaims) (sig : Sig)
deriving Repr, DecidableEq

/-! Error bitmask of github.com/golang-jwt/jwt/v4 ValidationError,
as in errors.go of that library (1 shifted by iota). Only the bits
that the parse pipeline of this program can produce are named. -/

def ValidationErrorMalformed : Nat := 1
def ValidationErrorUnverifiable : Nat := 2
def ValidationErrorSignatureInvalid : Nat := 4
def ValidationErrorExpired : Nat := 16
def ValidationErrorIssuedAt : Nat := 32

/-- The signing method names registered by default in jwt/v4:
GetSigningMethod returns a method exactly for these names. -/
def registeredAlgs : List String :=
  ["none", "HS256", "HS384", "HS512", "RS256", "RS384", "RS512",
   "ES256", "ES384", "ES512", "PS256", "PS384", "PS512", "EdDSA"]

/-- Whether a registered method is an HMAC method (SigningMethodHMAC):
the keyfunc in ValidateToken accepts exactly these. -/
def isHMACAlg (alg : String) : Bool :=
  alg = "HS256" || alg = "HS384" || alg = "HS512"

/-- RegisteredClaims.VerifyExpiresAt with required = false: a missing
exp claim passes; otherwise now must be strictly before exp. -/
def verifyExpiresAt (now : Int) (c : JWTClaims) : Bool :=
  match c.exp with
  | none => true
  | some e => now < e

/-- RegisteredClaims.VerifyIssuedAt with required = false: a missing
iat claim passes; otherwise now must be at or after iat. -/
def verifyIssuedAt (now : Int) (c : JWTClaims) : Bool :=
  match c.iat with
  | none => true
  | some i => i ≤ now

/-- The validation-error bits accumulated by RegisteredClaims.Valid for
the claims this program produces or checks (exp and iat; the code never
sets nbf). -/
def claimsValidBits (now : Int) (c : JWTClaims) : Nat :=
  (if verifyExpiresAt now c then 0 else ValidationErrorExpired) |||
  (if verifyIssuedAt now c then 0 else ValidationErrorIssuedAt)

/-- Outcome of jwt.ParseWithClaims: success with typed claims, a
ValidationError with its bitmask, or an error value that is not a
ValidationError (kept so that ValidateToken can mirror its type switch
on the returned error; the parse pipeline itself never produces it). -/
inductive ParseOutcome where
  | ok (claims : JWTClaims)
  | validationErr (bits : Nat)
  | otherErr (msg : String)
deriving Repr, DecidableEq

/-- jwt.ParseWithClaims with the keyfunc used by ValidateToken (accept
only HMAC methods and hand back the configured key), following the v4
pipeline: ParseUnverified rejects non-three-part input with the
Malformed bit and unknown algorithm names with the Unverifiable bit;
a keyfunc error yields the Unverifiable bit; then claims validation
bits and the signature-verification bit are accumulated into one
ValidationError, and the token is valid only if no bit is set. -/
def parseWithClaims (key : String) (now : Int) : TokenWire → ParseOutcome
  | .malformed _ => .validationErr ValidationErrorMalformed
  | .wellFormed alg payload sig =>
    if alg ∈ registeredAlgs then
      if isHMACAlg alg then
        let vBits := claimsValidBits now payload
        let sBits :=
          if sig = Sig.hmacSig alg key payload then 0
          else ValidationErrorSignatureInvalid
        if vBits ||| sBits = 0 then .ok payload
        else .validationErr (vBits ||| sBits)
      else .validationErr ValidationErrorUnverifiable
    else .validationErr ValidationErrorUnverifiable

/-- The sentinel error values of jwtutil.go, plus the plain error
values the package returns that are none of the three sentinels (the
missing-secret error from getSigningKey). -/
inductive JWTError where
  | tokenExpired
  | tokenMalformed
  | tokenInvalid
  | envError (msg : String)
deriving Repr, DecidableEq

/-- getSigningKey from jwtutil.go: read JWT_SECRET, error if empty. -/
def getSigningKey (env : Env) : Option String :=
  if env.jwtSecret = "" then none else some env.jwtSecret

/-- Digit-string value for strconv.Atoi: defined only when the list is
nonempty and all characters are decimal digits. -/
def digitsVal (cs : List Char) : Option Nat :=
  if cs = [] then none
  else if cs.all Char.isDigit then
    some (cs.foldl (fun n c => n * 10 + (c.toNat - 48)) 0)
  else none

/-- strconv.Atoi: an optional single leading sign followed by one or
more decimal digits; anything else is an error (none). The int64
range check of Go is not modelled; it does not matter on any input a
claim touches. -/
def atoi (s : String) : Option Int :=
  match s.toList with
  | '-' :: rest => (digitsVal rest).map (fun n => -(n : Int))
  | '+' :: rest => (digitsVal rest).map (fun n => (n : Int))
  | cs => (digitsVal cs).map (fun n => (n : Int))

/-- getExpiryDuration from jwtutil.go, in seconds: read JWT_EXPIRES_IN
as minutes, and fall back to 60 minutes when the variable is empty,
not a number, or not positive. -/
def getExpiryDuration (env : Env) : Int :=
  if env.jwtExpiresIn = "" then 60 * 60
  else
    match atoi env.jwtExpiresIn with
    | none => 60 * 60
    | some minutes => if minutes ≤ 0 then 60 * 60 else minutes * 60

/-- GenerateToken from jwtutil.go: with the configured key, build
claims carrying the user id, an expiry of now plus the configured TTL
and an issued-at of now, and sign them with HMAC-SHA256 under the
key. The two time.Now calls of the source are modelled by the single
instant now. -/
def GenerateToken (env : Env) (now : Int) (userID : Int) :
    Except JWTError TokenWire :=
  match getSigningKey env with
  | none => .error (.envError "environment variable JWT_SECRET is not set")
  | some key =>
    let expiry := now + getExpiryDuration env
    let claims : JWTClaims := ⟨userID, some expiry, some now⟩
    .ok (.wellFormed "HS256" claims (.hmacSig "HS256" key claims))

/-- ValidateToken from jwtutil.go: parse with the HMAC-only keyfunc;
on a ValidationError return ErrTokenExpired when the Expired bit is
set and ErrTokenMalformed otherwise; on any other error return
ErrTokenInvalid. On success the claims pointer always has the
requested type and the token is marked valid, so the final
type-assertion guard (which would also return ErrTokenInvalid)
collapses to returning the claims. -/
def ValidateToken (env : Env) (now : Int) (tokenStr : TokenWire) :
    Except JWTError JWTClaims :=
  match getSigningKey env with
  | none => .error (.envError "environment variable JWT_SECRET is not set")
  | some key =>
    match parseWithClaims key now tokenStr with
    | .validationErr bits =>
      if bits &&& ValidationErrorExpired ≠ 0 then .error .tokenExpired
      else .error .tokenMalformed
    | .otherErr _ => .error .tokenInvalid
    | .ok claims => .ok claims

/-- ExtractUserID from jwtutil.go: validate, then project the user_id
claim. -/
def ExtractUserID (env : Env) (now : Int) (tokenStr : TokenWire) :
    Except JWTError Int :=
  match ValidateToken env now tokenStr with
  | .error e => .error e
  | .ok claims => .ok claims.user_id

/-! Embedding of internal/auth/middleware.go. The gin context value
bag is an association list from string keys to dynamically typed
values; gin Set prepends and Get takes the most recent binding. -/

/-- A dynamically typed value stored in the gin context. -/
inductive CtxVal where
  | intVal (i : Int)
  | strVal (s : String)
deriving Repr, DecidableEq

/-- The per-request context value bag. -/
abbrev Ctx := List (String × CtxVal)

/-- gin Context.Set. -/
def ctxSet (c : Ctx) (k : String) (v : CtxVal) : Ctx := (k, v) :: c

/-- gin Context.Get: the value and whether the key exists. -/
def ctxGet (c : Ctx) (k : String) : Option CtxVal := c.lookup k

/-- strings.ToLower, character by character (all comparisons in the
middleware involve only ASCII). -/
def toLowerL (s : List Char) : List Char := s.map Char.toLower

/-- The literal the middleware compares the lowered scheme against. -/
def bearerChars : List Char := ['b', 'e', 'a', 'r', 'e', 'r']

/-- Split a character list at the first occurrence of sep, if any. -/
def splitFirst (sep : Char) : List Char → Option (List Char × List Char)
  | [] => none
  | c :: cs =>
    if c = sep then some ([], cs)
    else
      match splitFirst sep cs with
      | none => none
      | some (pre, post) => some (c :: pre, post)

/-- strings.SplitN with count 2: the whole string when the separator
does not occur, otherwise the part before the first separator and
everything after it. -/
def splitN2 (sep : Char) (s : List Char) : List (List Char) :=
  match splitFirst sep s with
  | none => [s]
  | some (pre, post) => [pre, post]

/-- Outcome of running the middleware on one request: an aborted
request with an HTTP status and the message inside the single-key
JSON error body, or a pass to the next handler with the updated
context. -/
inductive MWOutcome where
  | rejected (status : Nat) (body : String)
  | passed (ctx : Ctx)
deriving Repr, DecidableEq

/-- JWTAuthMiddleware from middleware.go: split the Authorization
header at the first space into at most two parts; unless there are
exactly two parts and the first lowercases to bearer, abort 401 with
the invalid-auth-header body. Otherwise hand the second part to
ExtractUserID: on ErrTokenExpired abort 401 with the token-expired
body, on any other error abort 401 with the invalid-token body, and
on success bind the user id under the userID key and continue.

wireOf is the (injective, abstract) reading of a byte string as a
token wire value; env and now parameterize the codec. The returned
Bool records whether ExtractUserID was invoked on this request. -/
def JWTAuthMiddleware (wireOf : List Char → TokenWire) (env : Env)
    (now : Int) (authHeader : List Char) (c : Ctx) : MWOutcome × Bool :=
  match splitN2 ' ' authHeader with
  | [scheme, tokenStr] =>
    if toLowerL scheme = bearerChars then
      match ExtractUserID env now (wireOf tokenStr) with
      | .error e =>
        if e = JWTError.tokenExpired then
          (.rejected 401 "token expired", true)
        else
          (.rejected 401 "invalid token", true)
      | .ok uid => (.passed (ctxSet c "userID" (.intVal uid)), true)
    else (.rejected 401 "invalid auth header", false)
  | _ => (.rejected 401 "invalid auth header", false)

/-- GetUserID from middleware.go: read the userID key from the
context; absent gives (0, false); a present value that is not an int
fails the type assertion, giving the zero value and false. -/
def GetUserID (c : Ctx) : Int × Bool :=
  match ctxGet c "userID" with
  | none => (0, false)
  | some (.intVal uid) => (uid, true)
  | some _ => (0, false)

/-! Embedding of the credential service and controller:
internal/auth service, controller and dto files, over the user
repository contract (GetByEmail finds the row with the given email,
Create inserts a row with the next sequence-assigned id). -/

/-- models.User restricted to the fields the auth code reads or
writes; timestamps are integers. -/
structure User where
  id : Int
  username : String
  email : String
  passwordHash : String
  fullName : String
  bio : String
  createdAt : Int
  updatedAt : Int
deriving Repr, DecidableEq

/-- The users table together with the sequence backing its serial
primary key. -/
structure RepoState where
  users : List User
  nextId : Int
deriving Repr, DecidableEq

/-- UserRepository.GetByEmail: the first row with the given email, or
none (sql.ErrNoRows is mapped to a nil row by the repository). -/
def repoGetByEmail (db : RepoState) (email : String) : Option User :=
  db.users.find? (fun u => u.email == email)

/-- UserRepository.Create: insert the row with the next id from the
sequence and return the assigned id. -/
def repoCreate (db : RepoState) (u : User) : RepoState × Int :=
  (⟨db.users ++ [{ u with id := db.nextId }], db.nextId + 1⟩, db.nextId)

/-- RegisterDTO from dto.go. -/
structure RegisterDTO where
  username : String
  email : String
  password : String
  fullName : String
  bio : String
deriving Repr, DecidableEq

/-- LoginDTO from dto.go. -/
structure LoginDTO where
  email : String
  password : String
deriving Repr, DecidableEq

/-- RegisterDTO.Validate: the message of the first missing required
field, or none when valid. -/
def registerValidate (dto : RegisterDTO) : Option String :=
  if dto.username = "" then some "username is required"
  else if dto.email = "" then some "email is required"
  else if dto.password = "" then some "password is required"
  else none

/-- LoginDTO.Validate. -/
def loginValidate (dto : LoginDTO) : Option String :=
  if dto.email = "" then some "email is required"
  else if dto.password = "" then some "password is required"
  else none

/-- The error values of the auth service as the controller
distinguishes them: the two sentinels ErrUserExists and
ErrInvalidCredentials, validation errors from the DTOs, and errors
forwarded from the token codec. -/
inductive AuthError where
  | userExists
  | invalidCredentials
  | validationErr (msg : String)
  | jwtErr (e : JWTError)
deriving Repr, DecidableEq

/-- AuthService.Register: validate the DTO, reject with ErrUserExists
when a row with the email already exists, otherwise hash the password
(bcryptHash is the abstract bcrypt.GenerateFromPassword) and insert a
new row, returning the new id. The pair is the resulting repository
state and the result. -/
def Register (bcryptHash : String → String) (now : Int) (db : RepoState)
    (dto : RegisterDTO) : RepoState × Except AuthError Int :=
  match registerValidate dto with
  | some msg => (db, .error (.validationErr msg))
  | none =>
    match repoGetByEmail db dto.email with
    | some _ => (db, .error .userExists)
    | none =>
      let u : User :=
        ⟨0, dto.username, dto.email, bcryptHash dto.password,
         dto.fullName, dto.bio, now, now⟩
      let res := repoCreate db u
      (res.1, .ok res.2)

/-- AuthService.Login: validate the DTO; a missing account and a
failed bcrypt comparison (bcryptCheck is the abstract
bcrypt.CompareHashAndPassword, true on match) both yield
ErrInvalidCredentials; on a match issue a token for the account id. -/
def Login (bcryptCheck : String → String → Bool) (env : Env) (now : Int)
    (db : RepoState) (dto : LoginDTO) : Except AuthError TokenWire :=
  match loginValidate dto with
  | some msg => .error (.validationErr msg)
  | none =>
    match repoGetByEmail db dto.email with
    | none => .error .invalidCredentials
    | some u =>
      if bcryptCheck u.passwordHash dto.password then
        match GenerateToken env now u.id with
        | .error e => .error (.jwtErr e)
        | .ok tok => .ok tok
      else .error .invalidCredentials

/-- Body of an HTTP response from the auth controller: the message
under the error key, the issued token, or the created id. -/
inductive RespBody where
  | errMsg (msg : String)
  | tokenBody (tok : TokenWire)
  | idBody (id : Int)
deriving Repr, DecidableEq

/-- An HTTP status with its JSON body. -/
structure HTTPResponse where
  status : Nat
  body : RespBody
deriving Repr, DecidableEq

/-- The response RegisterHandler writes for a service result: 201 with
the id on success, 409 conflict exactly for ErrUserExists, 500 with a
generic server-error body for every other error. -/
def registerHandlerRespond (result : Except AuthError Int) : HTTPResponse :=
  match result with
  | .ok id => ⟨201, .idBody id⟩
  | .error e =>
    if e = AuthError.userExists then ⟨409, .errMsg "email already in use"⟩
    else ⟨500, .errMsg "server error"⟩

/-- The response LoginHandler writes for a service result: 200 with
the token on success, 401 exactly for ErrInvalidCredentials, 500 with
a generic server-error body for every other error. -/
def loginHandlerRespond (result : Except AuthError TokenWire) : HTTPResponse :=
  match result with
  | .ok tok => ⟨200, .tokenBody tok⟩
  | .error e =>
    if e = AuthError.invalidCredentials then
      ⟨401, .errMsg "wrong email or password"⟩
    else ⟨500, .errMsg "server error"⟩

/-! Theorems. Shared helper lemmas come first, then one theorem per
claim with its witness where the theorem carries hypotheses. -/

theorem getSigningKey_of_ne (env : Env) (h : env.jwtSecret ≠ "") :
    getSigningKey env = some env.jwtSecret := by
  simp [getSigningKey, h]

/-- Issuing at tIssue and verifying at tVerify, with the same key
configured, succeeds with the embedded user id as long as
verification happens at or after issuance and strictly before the
expiry instant. -/
theorem roundtrip_aux (env : Env) (userID tIssue tVerify : Int)
    (hsecret : env.jwtSecret ≠ "") (hafter : tIssue ≤ tVerify)
    (hbefore : tVerify < tIssue + getExpiryDuration env) :
    ∃ tok, GenerateToken env tIssue userID = .ok tok ∧
      ExtractUserID env tVerify tok = .ok userID := by
  refine ⟨.wellFormed "HS256" ⟨userID, some (tIssue + getExpiryDuration env), some tIssue⟩
      (.hmacSig "HS256" env.jwtSecret
        ⟨userID, some (tIssue + getExpiryDuration env), some tIssue⟩), ?_, ?_⟩
  · simp [GenerateToken, getSigningKey_of_ne env hsecret]
  · simp [ExtractUserID, ValidateToken, getSigningKey_of_ne env hsecret,
      parseWithClaims, registeredAlgs, isHMACAlg, claimsValidBits,
      verifyExpiresAt, verifyIssuedAt, hafter, hbefore]

theorem getExpiryDuration_default (env : Env)
    (h : env.jwtExpiresIn = "" ∨ atoi env.jwtExpiresIn = none ∨
         ∃ m, atoi env.jwtExpiresIn = some m ∧ m ≤ 0) :
    getExpiryDuration env = 3600 := by
  unfold getExpiryDuration
  rcases h with h | h | ⟨m, hm, hm0⟩
  · simp [h]
  · by_cases he : env.jwtExpiresIn = "" <;> simp [he, h]
  · have he : env.jwtExpiresIn ≠ "" := by
      intro he
      rw [he] at hm
      have : atoi "" = none := by decide
      rw [this] at hm
      exact Option.noConfusion hm
    simp [he, hm, hm0]

/-- C1: for every userID and every configured signing key, a token
produced by GenerateToken, when handed to ExtractUserID at or after
issuance, before its expiry, and under the same configuration,
verifies successfully and returns exactly the embedded userID. -/
theorem issue_then_verify_returns_userID (env : Env)
    (userID tIssue tVerify : Int) (hsecret : env.jwtSecret ≠ "")
    (hafter : tIssue ≤ tVerify)
    (hbefore : tVerify < tIssue + getExpiryDuration env) :
    ∃ tok, GenerateToken env tIssue userID = .ok tok ∧
      ExtractUserID env tVerify tok = .ok userID :=
  roundtrip_aux env userID tIssue tVerify hsecret hafter hbefore

theorem issue_then_verify_returns_userID_witness :
    (Env.mk "secret" "").jwtSecret ≠ "" ∧ (0 : Int) ≤ 10 ∧
    (10 : Int) < 0 + getExpiryDuration (Env.mk "secret" "") ∧
    (∃ tok, GenerateToken (Env.mk "secret" "") 0 7 = .ok tok ∧
      ExtractUserID (Env.mk "secret" "") 10 tok = .ok 7) :=
  ⟨by decide, by decide, by decide,
    issue_then_verify_returns_userID (Env.mk "secret" "") 7 0 10
      (by decide) (by decide) (by decide)⟩

/-- C2 counterexample: with JWT_EXPIRES_IN set to 0, a token issued at
instant 0 and verified at the same instant succeeds with the embedded
user id; it does not fail with ErrTokenExpired as the claim states,
because getExpiryDuration replaces a nonpositive TTL with the
60-minute default. -/
theorem ttl_zero_immediate_verify_succeeds_counterexample :
    ∃ tok, GenerateToken (Env.mk "secret" "0") 0 1 = .ok tok ∧
      ExtractUserID (Env.mk "secret" "0") 0 tok = .ok 1 ∧
      ExtractUserID (Env.mk "secret" "0") 0 tok ≠ .error JWTError.tokenExpired := by
  refine ⟨.wellFormed "HS256" ⟨1, some 3600, some 0⟩
      (.hmacSig "HS256" "secret" ⟨1, some 3600, some 0⟩), ?_, ?_, ?_⟩ <;> decide

/-- C2 amended: for every configuration whose JWT_EXPIRES_IN parses to
a number of minutes at most 0, the effective TTL is the 60-minute
default, and a token issued under such a configuration, verified
immediately after issuance, succeeds with the embedded userID rather
than failing with ErrTokenExpired. -/
theorem ttl_nonpositive_defaults_and_verifies (env : Env)
    (userID t m : Int) (hsecret : env.jwtSecret ≠ "")
    (hm : atoi env.jwtExpiresIn = some m) (hm0 : m ≤ 0) :
    getExpiryDuration env = 3600 ∧
    ∃ tok, GenerateToken env t userID = .ok tok ∧
      ExtractUserID env t tok = .ok userID := by
  have hd := getExpiryDuration_default env (Or.inr (Or.inr ⟨m, hm, hm0⟩))
  exact ⟨hd, roundtrip_aux env userID t t hsecret le_rfl (by omega)⟩

theorem ttl_nonpositive_defaults_and_verifies_witness :
    (Env.mk "secret" "-5").jwtSecret ≠ "" ∧
    atoi (Env.mk "secret" "-5").jwtExpiresIn = some (-5) ∧ (-5 : Int) ≤ 0 ∧
    (getExpiryDuration (Env.mk "secret" "-5") = 3600 ∧
      ∃ tok, GenerateToken (Env.mk "secret" "-5") 2 9 = .ok tok ∧
        ExtractUserID (Env.mk "secret" "-5") 2 tok = .ok 9) :=
  ⟨by decide, by decide, by decide,
    ttl_nonpositive_defaults_and_verifies (Env.mk "secret" "-5") 9 2 (-5)
      (by decide) (by decide) (by decide)⟩

/-- C10: whenever JWT_EXPIRES_IN is unset, non-numeric, or parses to a
value at most 0, the effective TTL used at issuance is exactly 60
minutes, and consequently (whenever a signing key is configured so
that issuance succeeds at all) a token issued under such a
configuration verifies successfully at the instant of issuance — it
is never already expired. -/
theorem default_ttl_never_expired_at_issuance (env : Env) (userID t : Int)
    (h : env.jwtExpiresIn = "" ∨ atoi env.jwtExpiresIn = none ∨
         ∃ m, atoi env.jwtExpiresIn = some m ∧ m ≤ 0) :
    getExpiryDuration env = 3600 ∧
    (env.jwtSecret ≠ "" → ∃ tok, GenerateToken env t userID = .ok tok ∧
        ExtractUserID env t tok = .ok userID) := by
  have hd := getExpiryDuration_default env h
  exact ⟨hd, fun hs => roundtrip_aux env userID t t hs le_rfl (by omega)⟩

theorem default_ttl_never_expired_at_issuance_witness :
    (atoi (Env.mk "k" "abc").jwtExpiresIn = none ∨ False ∨ False) ∧
    (getExpiryDuration (Env.mk "k" "abc") = 3600 ∧
      ((Env.mk "k" "abc").jwtSecret ≠ "" →
        ∃ tok, GenerateToken (Env.mk "k" "abc") 5 3 = .ok tok ∧
          ExtractUserID (Env.mk "k" "abc") 5 tok = .ok 3)) :=
  ⟨Or.inl (by decide),
    default_ttl_never_expired_at_issuance (Env.mk "k" "abc") 3 5
      (Or.inr (Or.inl (by decide)))⟩

theorem mem_registered_of_isHMAC (alg : String) (h : isHMACAlg alg = true) :
    alg ∈ registeredAlgs := by
  unfold isHMACAlg at h
  simp only [Bool.or_eq_true, decide_eq_true_eq] at h
  rcases h with (h | h) | h <;> subst h <;> simp [registeredAlgs]

/-- ValidateToken, under a configured key, is the translation of the
parse outcome through the error type switch of jwtutil.go. -/
theorem validateToken_eq_of_parse (env : Env) (now : Int) (tok : TokenWire)
    (hkey : getSigningKey env = some env.jwtSecret) :
    ValidateToken env now tok =
      match parseWithClaims env.jwtSecret now tok with
      | .validationErr bits =>
        if bits &&& ValidationErrorExpired ≠ 0 then .error .tokenExpired
        else .error .tokenMalformed
      | .otherErr _ => .error .tokenInvalid
      | .ok claims => .ok claims := by
  unfold ValidateToken
  rw [hkey]

/-- Whenever parsing yields a ValidationError, ExtractUserID returns
one of the sentinel errors, never a user id. -/
theorem extract_ne_ok_of_validationErr (env : Env) (now : Int)
    (tok : TokenWire) (bits : Nat)
    (hkey : getSigningKey env = some env.jwtSecret)
    (hp : parseWithClaims env.jwtSecret now tok = .validationErr bits) :
    ∀ uid, ExtractUserID env now tok ≠ Except.ok uid := by
  intro uid
  have hv := validateToken_eq_of_parse env now tok hkey
  rw [hp] at hv
  unfold ExtractUserID
  rw [hv]
  by_cases hb : bits &&& ValidationErrorExpired ≠ 0 <;> simp [hb]

/-- C6: a string that is not syntactically a three-part signed token
structure makes ValidateToken fail with ErrTokenMalformed — never
with ErrTokenExpired, never with success, and never with
ErrTokenInvalid, which the code reserves for rejections that are not
ValidationErrors (such as a claims type-assertion mismatch). -/
theorem non_three_part_gives_tokenMalformed (env : Env) (now : Int)
    (raw : String) (hsecret : env.jwtSecret ≠ "") :
    ValidateToken env now (.malformed raw) = .error .tokenMalformed ∧
    ValidateToken env now (.malformed raw) ≠ .error .tokenExpired ∧
    (∀ claims, ValidateToken env now (.malformed raw) ≠ .ok claims) ∧
    ValidateToken env now (.malformed raw) ≠ .error .tokenInvalid := by
  have h1 : ValidateToken env now (.malformed raw) = .error .tokenMalformed := by
    simp [ValidateToken, getSigningKey_of_ne env hsecret, parseWithClaims,
      ValidationErrorMalformed, ValidationErrorExpired]
  exact ⟨h1, by simp [h1], fun claims => by simp [h1], by simp [h1]⟩

theorem non_three_part_gives_tokenMalformed_witness :
    (Env.mk "secret" "").jwtSecret ≠ "" ∧
    (ValidateToken (Env.mk "secret" "") 0 (.malformed "garbage") =
        .error .tokenMalformed ∧
      ValidateToken (Env.mk "secret" "") 0 (.malformed "garbage") ≠
        .error .tokenExpired ∧
      (∀ claims, ValidateToken (Env.mk "secret" "") 0 (.malformed "garbage") ≠
        .ok claims) ∧
      ValidateToken (Env.mk "secret" "") 0 (.malformed "garbage") ≠
        .error .tokenInvalid) :=
  ⟨by decide,
    non_three_part_gives_tokenMalformed (Env.mk "secret" "") 0 "garbage"
      (by decide)⟩

/-- C7: a well-formed token whose signature was produced under a
secret different from the configured one, or whose header announces a
signing method outside the HMAC family (including none), never
verifies: ExtractUserID never returns a user id for it. -/
theorem wrong_key_or_foreign_alg_never_verifies (env : Env) (now : Int)
    (alg : String) (payload : JWTClaims) (sig : Sig)
    (hsecret : env.jwtSecret ≠ "")
    (h : (∃ key2, sig = .hmacSig alg key2 payload ∧ key2 ≠ env.jwtSecret) ∨
         isHMACAlg alg = false) :
    ∀ uid, ExtractUserID env now (.wellFormed alg payload sig) ≠ .ok uid := by
  have hkey := getSigningKey_of_ne env hsecret
  by_cases hA : isHMACAlg alg = true
  · rcases h with ⟨key2, rfl, hne⟩ | hfalse
    · have hmem := mem_registered_of_isHMAC alg hA
      have hsig : Sig.hmacSig alg key2 payload ≠
          Sig.hmacSig alg env.jwtSecret payload := by
        intro hc
        exact hne (by injection hc with h1 h2 h3)
      have hnz : claimsValidBits now payload |||
          ValidationErrorSignatureInvalid ≠ 0 := by
        unfold claimsValidBits ValidationErrorExpired ValidationErrorIssuedAt
          ValidationErrorSignatureInvalid
        cases verifyExpiresAt now payload <;>
          cases verifyIssuedAt now payload <;> decide
      have hp : parseWithClaims env.jwtSecret now (.wellFormed alg payload
          (.hmacSig alg key2 payload)) =
          .validationErr (claimsValidBits now payload |||
            ValidationErrorSignatureInvalid) := by
        simp [parseWithClaims, hmem, hA, hsig, hnz]
      exact extract_ne_ok_of_validationErr env now _ _ hkey hp
    · rw [hA] at hfalse
      exact Bool.noConfusion hfalse
  · have hA2 : isHMACAlg alg = false := by
      cases hb : isHMACAlg alg
      · rfl
      · exact absurd hb hA
    have hp : parseWithClaims env.jwtSecret now (.wellFormed alg payload sig) =
        .validationErr ValidationErrorUnverifiable := by
      unfold parseWithClaims
      by_cases hr : alg ∈ registeredAlgs <;> simp [hr, hA2]
    exact extract_ne_ok_of_validationErr env now _ _ hkey hp

theorem wrong_key_or_foreign_alg_never_verifies_witness :
    (Env.mk "secret" "").jwtSecret ≠ "" ∧
    ((∃ key2, Sig.hmacSig "HS256" "other" (JWTClaims.mk 1 none none) =
        .hmacSig "HS256" key2 (JWTClaims.mk 1 none none) ∧
        key2 ≠ (Env.mk "secret" "").jwtSecret) ∨
      isHMACAlg "HS256" = false) ∧
    (∀ uid, ExtractUserID (Env.mk "secret" "") 0
      (.wellFormed "HS256" (JWTClaims.mk 1 none none)
        (.hmacSig "HS256" "other" (JWTClaims.mk 1 none none))) ≠ .ok uid) :=
  ⟨by decide, Or.inl ⟨"other", rfl, by decide⟩,
    wrong_key_or_foreign_alg_never_verifies (Env.mk "secret" "") 0 "HS256"
      (JWTClaims.mk 1 none none) (.hmacSig "HS256" "other" (JWTClaims.mk 1 none none))
      (by decide) (Or.inl ⟨"other", rfl, by decide⟩)⟩

/-! Middleware lemmas: the split of the Authorization header and the
shape predicate of the spec. -/

theorem splitFirst_some (sep : Char) : ∀ (s pre post : List Char),
    splitFirst sep s = some (pre, post) → s = pre ++ sep :: post := by
  intro s
  induction s with
  | nil => simp [splitFirst]
  | cons c cs ih =>
    intro pre post h
    unfold splitFirst at h
    by_cases hc : c = sep
    · rw [if_pos hc] at h
      simp only [Option.some.injEq, Prod.mk.injEq] at h
      obtain ⟨h1, h2⟩ := h
      subst h1
      subst h2
      simp [hc]
    · rw [if_neg hc] at h
      cases hf : splitFirst sep cs with
      | none => rw [hf] at h; exact absurd h (by simp)
      | some pp =>
        obtain ⟨p1, p2⟩ := pp
        rw [hf] at h
        simp only [Option.some.injEq, Prod.mk.injEq] at h
        obtain ⟨h1, h2⟩ := h
        subst h1
        subst h2
        simp [ih p1 p2 hf]

theorem splitFirst_append (sep : Char) : ∀ (pre post : List Char),
    sep ∉ pre → splitFirst sep (pre ++ sep :: post) = some (pre, post) := by
  intro pre
  induction pre with
  | nil => intro post _; simp [splitFirst]
  | cons c cs ih =>
    intro post h
    simp only [List.mem_cons, not_or] at h
    obtain ⟨h1, h2⟩ := h
    simp only [List.cons_append]
    unfold splitFirst
    rw [if_neg (fun hh => h1 hh.symm), ih post h2]

/-- splitN2 returns the whole input exactly when the separator is
absent, and the two pieces around the first separator otherwise. -/
theorem splitN2_cases (sep : Char) (s : List Char) :
    (splitN2 sep s = [s] ∧ splitFirst sep s = none) ∨
    ∃ pre post, splitFirst sep s = some (pre, post) ∧
      splitN2 sep s = [pre, post] := by
  unfold splitN2
  cases h : splitFirst sep s with
  | none => exact Or.inl ⟨rfl, rfl⟩
  | some pp => exact Or.inr ⟨pp.1, pp.2, rfl, rfl⟩

/-- The header shape the spec requires: the string Bearer (scheme
compared case-insensitively) followed by a single separating space and
the token substring. -/
def isBearerShape (hdr : List Char) : Prop :=
  ∃ scheme rest, hdr = scheme ++ ' ' :: rest ∧
    toLowerL scheme = bearerChars

theorem space_not_mem_of_lower_bearer (s : List Char)
    (h : toLowerL s = bearerChars) : ' ' ∉ s := by
  intro hmem
  have hsp : ' ' ∈ toLowerL s := by
    unfold toLowerL
    exact List.mem_map.mpr ⟨' ', hmem, by decide⟩
  rw [h] at hsp
  exact absurd hsp (by decide)

/-- The shape predicate coincides with the check the middleware
performs on the result of the split. -/
theorem isBearerShape_iff (hdr : List Char) :
    isBearerShape hdr ↔ ∃ pre post, splitN2 ' ' hdr = [pre, post] ∧
      toLowerL pre = bearerChars := by
  constructor
  · rintro ⟨scheme, rest, rfl, hlow⟩
    have hns := space_not_mem_of_lower_bearer scheme hlow
    have hf := splitFirst_append ' ' scheme rest hns
    exact ⟨scheme, rest, by simp [splitN2, hf], hlow⟩
  · rintro ⟨pre, post, hsp, hlow⟩
    have hf : splitFirst ' ' hdr = some (pre, post) := by
      rcases splitN2_cases ' ' hdr with ⟨h2, _⟩ | ⟨p, q, hf, h2⟩
      · rw [h2] at hsp
        simp at hsp
      · rw [h2] at hsp
        simp only [List.cons.injEq, and_true] at hsp
        obtain ⟨hp, hq⟩ := hsp
        subst hp
        subst hq
        exact hf
    exact ⟨pre, post, splitFirst_some ' ' hdr pre post hf, hlow⟩

/-- Decidable version of the shape check, for concrete witnesses. -/
def headerShapeOK (hdr : List Char) : Bool :=
  match splitN2 ' ' hdr with
  | [pre, _] => toLowerL pre == bearerChars
  | _ => false

theorem isBearerShape_iff_headerShapeOK (hdr : List Char) :
    isBearerShape hdr ↔ headerShapeOK hdr = true := by
  rw [isBearerShape_iff]
  unfold headerShapeOK
  rcases splitN2_cases ' ' hdr with ⟨h2, _⟩ | ⟨pre, post, _, h2⟩ <;> rw [h2] <;> simp

/-- C4: any Authorization header that is not of the exact shape
Bearer token (case-insensitive scheme, single separating space) —
including an absent header, which reads as the empty string — is
rejected with the malformed-header response, and ExtractUserID is
never invoked on the request (the Bool component of the outcome). -/
theorem malformed_auth_header_rejected_before_codec
    (wireOf : List Char → TokenWire) (env : Env) (now : Int)
    (hdr : List Char) (c : Ctx) (hshape : ¬ isBearerShape hdr) :
    JWTAuthMiddleware wireOf env now hdr c =
      (.rejected 401 "invalid auth header", false) := by
  unfold JWTAuthMiddleware
  rcases splitN2_cases ' ' hdr with ⟨h2, _⟩ | ⟨pre, post, _, h2⟩ <;> rw [h2]
  have hb : ¬ toLowerL pre = bearerChars := by
    intro hb
    exact hshape ((isBearerShape_iff hdr).mpr ⟨pre, post, h2, hb⟩)
  simp [hb]

theorem malformed_auth_header_rejected_before_codec_witness :
    ¬ isBearerShape ("token abc".toList) ∧
    JWTAuthMiddleware (fun _ => .malformed "") (Env.mk "secret" "") 0
      ("token abc".toList) [] =
      (.rejected 401 "invalid auth header", false) := by
  have hshape : ¬ isBearerShape ("token abc".toList) := by
    rw [isBearerShape_iff_headerShapeOK]
    decide
  exact ⟨hshape, malformed_auth_header_rejected_before_codec
    (fun _ => .malformed "") (Env.mk "secret" "") 0 ("token abc".toList) [] hshape⟩

/-- C5: on a request carrying a token, a TokenExpired verification
failure is rejected with the distinct token-expired body, while
TokenMalformed and TokenInvalid are both rejected with one identical
invalid-token body; the expired and invalid bodies differ, so only
that distinction is visible to the client. -/
theorem expired_vs_invalid_token_responses (wireOf : List Char → TokenWire)
    (env : Env) (now : Int) (scheme t : List Char) (c : Ctx)
    (hscheme : toLowerL scheme = bearerChars) :
    (ExtractUserID env now (wireOf t) = .error .tokenExpired →
      JWTAuthMiddleware wireOf env now (scheme ++ ' ' :: t) c =
        (.rejected 401 "token expired", true)) ∧
    ((ExtractUserID env now (wireOf t) = .error .tokenMalformed ∨
      ExtractUserID env now (wireOf t) = .error .tokenInvalid) →
      JWTAuthMiddleware wireOf env now (scheme ++ ' ' :: t) c =
        (.rejected 401 "invalid token", true)) ∧
    ("token expired" : String) ≠ "invalid token" := by
  have hns := space_not_mem_of_lower_bearer scheme hscheme
  have hf := splitFirst_append ' ' scheme t hns
  have hsp : splitN2 ' ' (scheme ++ ' ' :: t) = [scheme, t] := by
    simp [splitN2, hf]
  refine ⟨?_, ?_, by decide⟩
  · intro he
    unfold JWTAuthMiddleware
    rw [hsp]
    simp [hscheme, he]
  · rintro (he | he) <;> (unfold JWTAuthMiddleware; rw [hsp]; simp [hscheme, he])

theorem expired_vs_invalid_token_responses_witness :
    toLowerL ("Bearer".toList) = bearerChars ∧
    ((ExtractUserID (Env.mk "secret" "") 0
        ((fun _ => TokenWire.malformed "x") ("x".toList)) = .error .tokenExpired →
      JWTAuthMiddleware (fun _ => TokenWire.malformed "x") (Env.mk "secret" "") 0
        ("Bearer".toList ++ ' ' :: "x".toList) [] =
        (.rejected 401 "token expired", true)) ∧
    ((ExtractUserID (Env.mk "secret" "") 0
        ((fun _ => TokenWire.malformed "x") ("x".toList)) = .error .tokenMalformed ∨
      ExtractUserID (Env.mk "secret" "") 0
        ((fun _ => TokenWire.malformed "x") ("x".toList)) = .error .tokenInvalid) →
      JWTAuthMiddleware (fun _ => TokenWire.malformed "x") (Env.mk "secret" "") 0
        ("Bearer".toList ++ ' ' :: "x".toList) [] =
        (.rejected 401 "invalid token", true)) ∧
    ("token expired" : String) ≠ "invalid token") :=
  ⟨by decide, expired_vs_invalid_token_responses (fun _ => TokenWire.malformed "x")
    (Env.mk "secret" "") 0 ("Bearer".toList) ("x".toList) [] (by decide)⟩

/-- C9: the identity accessor reports absence on every context where
the middleware never ran or never succeeded, and it reports a present
identifier exactly when the middleware bound one after successful
verification: on a clean context GetUserID gives (0, false); when the
middleware rejects, the context is untouched and GetUserID still
gives (0, false); when the middleware passes, the resulting context
is the old one with the verified id bound under the userID key, and
GetUserID returns that id with true. -/
theorem identity_accessor_contract (wireOf : List Char → TokenWire)
    (env : Env) (now : Int) (hdr : List Char) (c : Ctx)
    (hclean : ctxGet c "userID" = none) :
    GetUserID c = (0, false) ∧
    (∀ st b inv, JWTAuthMiddleware wireOf env now hdr c = (.rejected st b, inv) →
      GetUserID c = (0, false)) ∧
    (∀ c2 inv, JWTAuthMiddleware wireOf env now hdr c = (.passed c2, inv) →
      ∃ uid, c2 = ctxSet c "userID" (.intVal uid) ∧
        GetUserID c2 = (uid, true)) := by
  have h1 : GetUserID c = (0, false) := by
    unfold GetUserID
    rw [hclean]
  refine ⟨h1, fun _ _ _ _ => h1, ?_⟩
  intro c2 inv hmw
  unfold JWTAuthMiddleware at hmw
  rcases splitN2_cases ' ' hdr with ⟨h2, _⟩ | ⟨pre, post, _, h2⟩ <;> rw [h2] at hmw
  · exact absurd hmw (by simp)
  · by_cases hb : toLowerL pre = bearerChars
    · cases hx : ExtractUserID env now (wireOf post) with
      | error e =>
        by_cases he : e = JWTError.tokenExpired <;> simp [hb, he, hx] at hmw
      | ok uid =>
        simp only [hb, if_true, hx, Prod.mk.injEq, MWOutcome.passed.injEq,
          if_pos] at hmw
        obtain ⟨hc2, -⟩ := hmw
        subst hc2
        refine ⟨uid, rfl, ?_⟩
        unfold GetUserID ctxGet ctxSet
        simp [List.lookup]
    · simp [hb] at hmw

theorem identity_accessor_contract_witness :
    ctxGet ([] : Ctx) "userID" = none ∧
    (GetUserID ([] : Ctx) = (0, false) ∧
    (∀ st b inv, JWTAuthMiddleware (fun _ => .malformed "") (Env.mk "s" "") 0
        ("Bearer x".toList) [] = (.rejected st b, inv) →
      GetUserID ([] : Ctx) = (0, false)) ∧
    (∀ c2 inv, JWTAuthMiddleware (fun _ => .malformed "") (Env.mk "s" "") 0
        ("Bearer x".toList) [] = (.passed c2, inv) →
      ∃ uid, c2 = ctxSet [] "userID" (.intVal uid) ∧
        GetUserID c2 = (uid, true))) :=
  ⟨rfl, identity_accessor_contract (fun _ => .malformed "") (Env.mk "s" "") 0
    ("Bearer x".toList) [] rfl⟩

/-- C3: for every login request that passes payload validation, the
two failure causes — no account with the supplied email, and an
account whose stored hash does not match the supplied password —
produce the identical ErrInvalidCredentials error value, and the
login handler surfaces both as the identical 401 status with the
identical body. -/
theorem login_enumeration_resistance (bc : String → String → Bool)
    (env : Env) (now : Int) (db : RepoState) (dto : LoginDTO)
    (hvalid : loginValidate dto = none) :
    (repoGetByEmail db dto.email = none →
      Login bc env now db dto = .error .invalidCredentials ∧
      loginHandlerRespond (Login bc env now db dto) =
        ⟨401, .errMsg "wrong email or password"⟩) ∧
    (∀ u, repoGetByEmail db dto.email = some u →
      bc u.passwordHash dto.password = false →
      Login bc env now db dto = .error .invalidCredentials ∧
      loginHandlerRespond (Login bc env now db dto) =
        ⟨401, .errMsg "wrong email or password"⟩) := by
  constructor
  · intro hnone
    have hl : Login bc env now db dto = .error .invalidCredentials := by
      unfold Login
      rw [hvalid, hnone]
    exact ⟨hl, by rw [hl]; rfl⟩
  · intro u hsome hbc
    have hl : Login bc env now db dto = .error .invalidCredentials := by
      unfold Login
      rw [hvalid, hsome]
      simp [hbc]
    exact ⟨hl, by rw [hl]; rfl⟩

theorem login_enumeration_resistance_witness :
    loginValidate (LoginDTO.mk "a@x.com" "pw") = none ∧
    ((repoGetByEmail (RepoState.mk [] 1) (LoginDTO.mk "a@x.com" "pw").email = none →
      Login (fun _ _ => false) (Env.mk "s" "") 0 (RepoState.mk [] 1)
          (LoginDTO.mk "a@x.com" "pw") = .error .invalidCredentials ∧
      loginHandlerRespond (Login (fun _ _ => false) (Env.mk "s" "") 0
          (RepoState.mk [] 1) (LoginDTO.mk "a@x.com" "pw")) =
        ⟨401, .errMsg "wrong email or password"⟩) ∧
    (∀ u, repoGetByEmail (RepoState.mk [] 1) (LoginDTO.mk "a@x.com" "pw").email = some u →
      (fun _ _ => false) u.passwordHash (LoginDTO.mk "a@x.com" "pw").password = false →
      Login (fun _ _ => false) (Env.mk "s" "") 0 (RepoState.mk [] 1)
          (LoginDTO.mk "a@x.com" "pw") = .error .invalidCredentials ∧
      loginHandlerRespond (Login (fun _ _ => false) (Env.mk "s" "") 0
          (RepoState.mk [] 1) (LoginDTO.mk "a@x.com" "pw")) =
        ⟨401, .errMsg "wrong email or password"⟩)) :=
  ⟨by decide, login_enumeration_resistance (fun _ _ => false) (Env.mk "s" "") 0
    (RepoState.mk [] 1) (LoginDTO.mk "a@x.com" "pw") (by decide)⟩

/-- No two rows of the users table share an email. -/
def emailsUnique (db : RepoState) : Prop :=
  db.users.Pairwise (fun u v => u.email ≠ v.email)

theorem find?_append_none {α : Type} (p : α → Bool) (l1 l2 : List α)
    (h : l1.find? p = none) : (l1 ++ l2).find? p = l2.find? p := by
  induction l1 with
  | nil => rfl
  | cons a l ih =>
    by_cases hp : p a = true
    · rw [List.find?_cons_of_pos l hp] at h
      exact absurd h (by simp)
    · have hp2 : ¬ p a = true := hp
      rw [List.find?_cons_of_neg l hp2] at h
      simp only [List.cons_append]
      rw [List.find?_cons_of_neg _ hp2]
      exact ih h

/-- C8: registration against an email that already has an account
fails with ErrUserExists, leaves the store unchanged, and surfaces
over HTTP as a 409 conflict with the duplicate-email body rather than
a generic server error; registering a fresh email succeeds and makes
any second registration of the same email fail with ErrUserExists
while leaving the store unchanged; and a register step never breaks
the invariant that no two credential records share an email. -/
theorem register_duplicate_email_conflict (bcryptHash : String → String)
    (now now2 : Int) (db : RepoState) (dto dto2 : RegisterDTO)
    (hvalid : registerValidate dto = none)
    (hvalid2 : registerValidate dto2 = none)
    (hemail : dto2.email = dto.email) :
    (∀ u, repoGetByEmail db dto.email = some u →
      Register bcryptHash now db dto = (db, .error .userExists) ∧
      registerHandlerRespond (Register bcryptHash now db dto).2 =
        ⟨409, .errMsg "email already in use"⟩) ∧
    (repoGetByEmail db dto.email = none →
      ∃ db2 id, Register bcryptHash now db dto = (db2, .ok id) ∧
        Register bcryptHash now2 db2 dto2 = (db2, .error .userExists)) ∧
    (emailsUnique db → emailsUnique (Register bcryptHash now db dto).1) := by
  refine ⟨?_, ?_, ?_⟩
  · intro u hsome
    have hr : Register bcryptHash now db dto = (db, .error .userExists) := by
      unfold Register
      rw [hvalid, hsome]
    exact ⟨hr, by rw [hr]; rfl⟩
  · intro hnone
    refine ⟨⟨db.users ++
        [⟨db.nextId, dto.username, dto.email, bcryptHash dto.password,
          dto.fullName, dto.bio, now, now⟩], db.nextId + 1⟩, db.nextId, ?_, ?_⟩
    · unfold Register
      rw [hvalid, hnone]
      rfl
    · unfold Register
      rw [hvalid2]
      have hfind : repoGetByEmail
          ⟨db.users ++
            [⟨db.nextId, dto.username, dto.email, bcryptHash dto.password,
              dto.fullName, dto.bio, now, now⟩], db.nextId + 1⟩ dto2.email =
          some ⟨db.nextId, dto.username, dto.email, bcryptHash dto.password,
            dto.fullName, dto.bio, now, now⟩ := by
        unfold repoGetByEmail at hnone ⊢
        rw [hemail]
        rw [find?_append_none _ _ _ hnone]
        simp
      rw [hfind]
  · intro huniq
    unfold Register
    cases hv : registerValidate dto with
    | some msg => exact huniq
    | none =>
      cases hg : repoGetByEmail db dto.email with
      | some u => exact huniq
      | none =>
        unfold emailsUnique at huniq ⊢
        unfold repoCreate
        simp only [List.pairwise_append]
        refine ⟨huniq, by simp, ?_⟩
        intro a ha b hb
        unfold repoGetByEmail at hg
        rw [List.find?_eq_none] at hg
        have := hg a ha
        simp only [List.mem_singleton] at hb
        subst hb
        simpa using this

theorem register_duplicate_email_conflict_witness :
    registerValidate (RegisterDTO.mk "alice" "a@x.com" "secret123" "" "") = none ∧
    registerValidate (RegisterDTO.mk "bob" "a@x.com" "pw2" "" "") = none ∧
    (RegisterDTO.mk "bob" "a@x.com" "pw2" "" "").email =
      (RegisterDTO.mk "alice" "a@x.com" "secret123" "" "").email ∧
    ((∀ u, repoGetByEmail (RepoState.mk [] 1)
        (RegisterDTO.mk "alice" "a@x.com" "secret123" "" "").email = some u →
      Register (fun p => p) 0 (RepoState.mk [] 1)
          (RegisterDTO.mk "alice" "a@x.com" "secret123" "" "") =
        (RepoState.mk [] 1, .error .userExists) ∧
      registerHandlerRespond (Register (fun p => p) 0 (RepoState.mk [] 1)
          (RegisterDTO.mk "alice" "a@x.com" "secret123" "" "")).2 =
        ⟨409, .errMsg "email already in use"⟩) ∧
    (repoGetByEmail (RepoState.mk [] 1)
        (RegisterDTO.mk "alice" "a@x.com" "secret123" "" "").email = none →
      ∃ db2 id, Register (fun p => p) 0 (RepoState.mk [] 1)
          (RegisterDTO.mk "alice" "a@x.com" "secret123" "" "") = (db2, .ok id) ∧
        Register (fun p => p) 1 db2 (RegisterDTO.mk "bob" "a@x.com" "pw2" "" "") =
          (db2, .error .userExists)) ∧
    (emailsUnique (RepoState.mk [] 1) →
      emailsUnique (Register (fun p => p) 0 (RepoState.mk [] 1)
        (RegisterDTO.mk "alice" "a@x.com" "secret123" "" "")).1)) :=
  ⟨by decide, by decide, by decide,
    register_duplicate_email_conflict (fun p => p) 0 1 (RepoState.mk [] 1)
      (RegisterDTO.mk "alice" "a@x.com" "secret123" "" "")
      (RegisterDTO.mk "bob" "a@x.com" "pw2" "" "")
      (by decide) (by decide) (by decide)⟩

end App
